import Mathlib

/-!
Shallow embedding of the frame-timing core of `mcap_to_mp4/cli.py`
(repository Tiryoh/mcap-to-mp4): the VFR duration planner
`build_vfr_durations_ns`, the inline CFR frame-rate computation of
`convert_to_mp4`, path sanitisation `_sanitize_path`, channel discovery
`get_image_topic_list`, and the concat-demuxer manifest built by
`encode_vfr`.  Python machine-level details are embedded as follows:
Python `float` arithmetic over nanosecond quantities is modelled by exact
rationals (ℚ), `int(x)` by truncation toward zero, `statistics.median` /
`statistics.mean` by their documented exact definitions, and `sys.exit` /
raised exceptions by an `Except` error type.
-/

/-- Python constant `IMAGE_SCHEMAS` (cli.py line 26), the recognised
image-bearing schema names. -/
def IMAGE_SCHEMAS : List String :=
  ["sensor_msgs/msg/Image", "sensor_msgs/msg/CompressedImage"]

/-- Python constant `NANOSECONDS_PER_SECOND = 1_000_000_000` (cli.py line 27). -/
def NANOSECONDS_PER_SECOND : Nat := 1000000000

/-- Python constant `DEFAULT_FALLBACK_FPS = 30.0` (cli.py line 28): an
integral float, embedded as the integer 30. -/
def DEFAULT_FALLBACK_FPS : Int := 30

/-- Python constant `MAX_GAP_MULTIPLIER = 10.0` (cli.py line 29): an
integral float, embedded as the integer 10. -/
def MAX_GAP_MULTIPLIER : Int := 10

/-- Python `int(x)` applied to a real value: truncation toward zero
(floor for non-negative arguments, ceiling for negative ones). -/
def pyInt (q : ℚ) : Int := if 0 ≤ q then q.floor else q.ceil

/-- Insert an element into an already sorted list (ascending). -/
def insertSorted (x : Int) : List Int → List Int
  | [] => [x]
  | y :: ys => if x ≤ y then x :: y :: ys else y :: insertSorted x ys

/-- Python `sorted(data)` for integers (insertion sort; every correct sort
agrees on `List Int`). -/
def pySorted (data : List Int) : List Int := data.foldr insertSorted []

/-- Python `statistics.median(data)`: sort, take the middle element when the
length is odd, the average `(a + b) / 2` of the two middle elements when it
is even (embedded as the exact rational `Rat.divInt (a + b) 2`).
`statistics.median` raises on an empty list; every call site below guards
non-emptiness, so the value at `[]` is irrelevant. -/
def pyMedian (data : List Int) : ℚ :=
  if data.length % 2 = 1 then (((pySorted data).getD (data.length / 2) 0 : Int) : ℚ)
  else
    Rat.divInt
      ((pySorted data).getD (data.length / 2 - 1) 0 + (pySorted data).getD (data.length / 2) 0) 2

/-- Python `statistics.mean(data)` over integers: the exact value
`sum(data) / len(data)` (the library computes the exact fraction before
float conversion; the only uses below compare the mean with 0 and invert
it, both preserved by the float conversion for integer data). -/
def pyMean (data : List Int) : ℚ := Rat.divInt data.sum data.length

/-- Consecutive deltas `[t[i+1] - t[i] for i in range(len(t) - 1)]`
(cli.py lines 149 and 308). -/
def listDeltas (ts : List Int) : List Int :=
  (ts.zip ts.tail).map (fun p => p.2 - p.1)

/-- Local constant `fallback_duration_ns = int(NANOSECONDS_PER_SECOND /
DEFAULT_FALLBACK_FPS)` of `build_vfr_durations_ns` (cli.py line 145),
hoisted: the float division is exact as a rational and `int` truncates. -/
def fallback_duration_ns : Int :=
  pyInt (Rat.divInt (NANOSECONDS_PER_SECOND : Int) DEFAULT_FALLBACK_FPS)

/-- Adjusted delta of one iteration of `build_vfr_durations_ns`'s loop
(cli.py lines 157-168).  Python's `max_gap_ns =
max(int(reference_duration_ns * MAX_GAP_MULTIPLIER),
reference_duration_ns)` multiplies by the integral float `10.0`, so
`int(...)` recovers exactly the integer product, embedded as such.  The
warnings printed by the source are side-effect-free logging and are not
modelled. -/
def vfr_adjusted (reference_duration_ns raw_delta : Int) : Int :=
  if raw_delta ≤ 0 then reference_duration_ns
  else if raw_delta > max (reference_duration_ns * MAX_GAP_MULTIPLIER) reference_duration_ns then
    max (reference_duration_ns * MAX_GAP_MULTIPLIER) reference_duration_ns
  else raw_delta

/-- Loop body of `build_vfr_durations_ns` (cli.py lines 156-171): the state
is the accumulated duration list and the running reference duration; the
adjusted delta is appended and becomes the next reference. -/
def vfr_step : List Int × Int → Int → List Int × Int
  | (durations_ns, reference_duration_ns), raw_delta =>
    (durations_ns ++ [vfr_adjusted reference_duration_ns raw_delta],
     vfr_adjusted reference_duration_ns raw_delta)

/-- Initial reference duration of `build_vfr_durations_ns` (cli.py lines
150-153): `int` of the median of the positive deltas when there are any,
otherwise the fallback duration. -/
def vfr_reference_init (raw_deltas : List Int) : Int :=
  if raw_deltas.filter (fun d => decide (0 < d)) ≠ [] then
    pyInt (pyMedian (raw_deltas.filter (fun d => decide (0 < d))))
  else fallback_duration_ns

/-- Loop of `build_vfr_durations_ns` over the raw deltas (cli.py lines
155-171), as a fold from the empty duration list and the initial
reference. -/
def vfr_fold (raw_deltas : List Int) : List Int × Int :=
  raw_deltas.foldl vfr_step ([], vfr_reference_init raw_deltas)

/-- Embedding of `build_vfr_durations_ns` (cli.py lines 141-174): empty
for no timestamps, the fallback duration for a single timestamp, and
otherwise the loop's duration list with the final reference appended once
more for the last frame (line 173). -/
def build_vfr_durations_ns (timestamps_ns : List Int) : List Int :=
  if timestamps_ns.length = 0 then []
  else if timestamps_ns.length = 1 then [fallback_duration_ns]
  else
    (vfr_fold (listDeltas timestamps_ns)).1 ++ [(vfr_fold (listDeltas timestamps_ns)).2]

/-- Decidable equality for `Except`, so concrete runs of the embedded
converter can be checked by `decide`. -/
instance {ε α : Type} [DecidableEq ε] [DecidableEq α] : DecidableEq (Except ε α) := fun x y =>
  match x, y with
  | Except.error a, Except.error b =>
    if h : a = b then isTrue (congrArg Except.error h)
    else isFalse (fun hh => h (Except.error.inj hh))
  | Except.ok a, Except.ok b =>
    if h : a = b then isTrue (congrArg Except.ok h)
    else isFalse (fun hh => h (Except.ok.inj hh))
  | Except.error _, Except.ok _ => isFalse (fun hh => Except.noConfusion hh)
  | Except.ok _, Except.error _ => isFalse (fun hh => Except.noConfusion hh)

/-- Characters rejected by `_sanitize_path` (cli.py line 116). -/
def dangerous_chars : List Char := (";|&\x60$()\x7b\x7d[]!#~").data

/-- Outcomes of `convert_to_mp4` that end the call without a finished
conversion: `invalidPath` is the `ValueError` raised by `_sanitize_path`,
the other two are the `sys.exit(1)` calls of cli.py lines 305 and 312
(user-facing non-zero exits, distinct from raised exceptions). -/
inductive ConvertError where
  | invalidPath (path : String)
  | insufficientFrames
  | degenerateTiming
deriving DecidableEq

/-- Observable result of a completed conversion: the CFR branch streams
`frames` rasters to a writer opened at rate `video_fps`; the VFR branch
saves `frames` image files and encodes them with the planned per-frame
durations. -/
inductive ConvertOutput where
  | cfr (video_fps : ℚ) (frames : Nat)
  | vfr (durations_ns : List Int) (frames : Nat)
deriving DecidableEq

/-- Embedding of `_sanitize_path` (cli.py lines 114-119): raise `ValueError`
when the path holds any shell-dangerous character, otherwise return the
path unchanged. -/
def _sanitize_path (file_path : String) : Except ConvertError String :=
  if file_path.data.any (fun c => decide (c ∈ dangerous_chars)) then
    Except.error (ConvertError.invalidPath file_path)
  else Except.ok file_path

/-- One message of the log as the (out-of-scope) mcap reader yields it:
its channel's schema name (`None` when the schema record is absent), its
channel's topic, its log-receipt time, and the embedded
`header.stamp` nanosecond value when present and well-formed (the result
of `get_header_stamp_ns`, cli.py lines 122-138, which returns `None` for a
missing or non-integer stamp). -/
structure McapMessage where
  schemaName : Option String
  topic : String
  logTime : Int
  headerStampNs : Option Int
deriving DecidableEq

/-- Message filter of both passes of `convert_to_mp4` (cli.py lines
294-295, 334-335, 371-372): the schema exists, is image-bearing, and the
channel topic equals the requested topic. -/
def message_qualifies (topic : String) (m : McapMessage) : Bool :=
  match m.schemaName with
  | some name => decide (name ∈ IMAGE_SCHEMAS) && m.topic == topic
  | none => false

/-- Pass-1 timestamp collection (cli.py lines 291-297): the log-receipt
times of the qualifying messages, in log order. -/
def scan_log_times (msgs : List McapMessage) (topic : String) : List Int :=
  (msgs.filter (message_qualifies topic)).map (fun m => m.logTime)

/-- Pass-2 VFR timestamp collection (cli.py lines 344-351): the
`header.stamp` of each qualifying message, falling back to its log-receipt
time when the stamp is absent or malformed. -/
def scan_frame_stamps (msgs : List McapMessage) (topic : String) : List Int :=
  (msgs.filter (message_qualifies topic)).map (fun m => m.headerStampNs.getD m.logTime)

/-- Embedding of `convert_to_mp4` (cli.py lines 282-393) at the level of
the claims: path sanitisation, the pass-1 scan, the
insufficient-frames gate, the CFR frame-rate computation with its
degenerate-timing gate, and the branch outcome.  Decoding, file writing
and the external encoder call are out-of-scope collaborators; the log is
passed as the message list its reader yields. -/
def convert_to_mp4 (msgs : List McapMessage) (input_file : String) (topic : String)
    (output_file : String) (timestamp_timing : Bool) : Except ConvertError ConvertOutput :=
  match _sanitize_path input_file with
  | Except.error e => Except.error e
  | Except.ok _ =>
    match _sanitize_path output_file with
    | Except.error e => Except.error e
    | Except.ok _ =>
      if (scan_log_times msgs topic).length < 2 then
        Except.error ConvertError.insufficientFrames
      else if timestamp_timing = false then
        if pyMean (listDeltas (scan_log_times msgs topic)) = 0 then
          Except.error ConvertError.degenerateTiming
        else
          Except.ok (ConvertOutput.cfr
            (1 / pyMean (listDeltas (scan_log_times msgs topic)) * 10 ^ (9 : Nat))
            (scan_log_times msgs topic).length)
      else
        Except.ok (ConvertOutput.vfr
          (build_vfr_durations_ns (scan_frame_stamps msgs topic))
          (scan_log_times msgs topic).length)

/-- Schema record of a log summary: its id and name. -/
structure McapSchema where
  id : Nat
  name : String
deriving DecidableEq

/-- Channel record of a log summary: the id of its schema and its topic. -/
structure McapChannel where
  schemaId : Nat
  topic : String
deriving DecidableEq

/-- Summary (metadata index) section of an mcap file: its schema records
and its channel records.  A channel record may exist with no messages on
its topic. -/
structure McapSummary where
  schemas : List McapSchema
  channels : List McapChannel
deriving DecidableEq

/-- A log as read twice by the tool: its optional summary section and its
message stream. -/
structure McapLog where
  summary : Option McapSummary
  messages : List McapMessage
deriving DecidableEq

/-- Embedding of `get_image_topic_list` (cli.py lines 99-111): empty when
the file has no summary; otherwise every channel whose schema id resolves
to an image-bearing schema contributes its topic, and the result is
deduplicated (`list(set(topic_list))`; Python's set iteration order is
unspecified, embedded as a canonical deduplication — the claims about the
result are order-insensitive). -/
def get_image_topic_list (log : McapLog) : List String :=
  match log.summary with
  | none => []
  | some summary =>
    (summary.channels.filterMap (fun channel =>
      match summary.schemas.find? (fun s => s.id == channel.schemaId) with
      | some schema =>
        if schema.name ∈ IMAGE_SCHEMAS then some channel.topic else none
      | none => none)).dedup

/-- Number of messages of the log that carry an image of the given topic
(the frames phase 1 would count for it). -/
def image_message_count (log : McapLog) (topic : String) : Nat :=
  (log.messages.filter (message_qualifies topic)).length

/-- Python `str.replace(old, new)` for a one-character pattern:
per-character substitution. -/
def pyReplaceChar (s : String) (old : Char) (new : String) : String :=
  String.join (s.data.map (fun c => if c = old then new else String.singleton c))

/-- Embedding of `quote_concat_path` (cli.py lines 177-178): single-quote
the path, escaping each embedded single quote as `'\''`. -/
def quote_concat_path (path : String) : String :=
  "\x27" ++ pyReplaceChar path '\x27' "\x27\\\x27\x27" ++ "\x27"

/-- Digits after the decimal point of Python's
`f"{duration_ns / NANOSECONDS_PER_SECOND:.9f}"` for a non-negative
nanosecond count: the 9 decimal digits of `n mod 1e9`, most significant
first. -/
def fracDigits9 (n : Nat) : String :=
  String.mk ((List.range 9).map (fun i => Nat.digitChar (n / 10 ^ (8 - i) % 10)))

/-- Python `f"{duration_ns / NANOSECONDS_PER_SECOND:.9f}"` (cli.py line
190): the duration in seconds with exactly 9 decimal places.  The division
by `1e9` is exact at 9 decimal places for integer nanoseconds, so the
rendering is the exact decimal expansion. -/
def pyFormatSeconds9 (ns : Int) : String :=
  if ns < 0 then
    "-" ++ toString (ns.natAbs / NANOSECONDS_PER_SECOND) ++ "." ++
      fracDigits9 (ns.natAbs % NANOSECONDS_PER_SECOND)
  else
    toString (ns.toNat / NANOSECONDS_PER_SECOND) ++ "." ++
      fracDigits9 (ns.toNat % NANOSECONDS_PER_SECOND)

/-- Lines of the concat-demuxer manifest `list.txt` written by `encode_vfr`
(cli.py lines 185-192), one list element per written line, in write order:
the loop over `zip(image_paths, durations_ns)` writes a `file` line and a
`duration` line per pair, then one final `file` line repeats the last path
(`image_paths[-1]`, which raises on an empty list in Python; the
placeholder of `getLastD` is never exposed under the claims' non-emptiness
hypothesis). -/
def encode_vfr_lines (image_paths : List String) (durations_ns : List Int) : List String :=
  ((image_paths.zip durations_ns).foldl
    (fun lines pd =>
      lines ++ ["file " ++ quote_concat_path pd.1,
                "duration " ++ pyFormatSeconds9 pd.2]) [])
  ++ ["file " ++ quote_concat_path (image_paths.getLastD "")]

/-- Entry check of `encode_vfr` (cli.py lines 182-183): a `RuntimeError`
when the path and duration counts differ, otherwise the manifest lines. -/
def encode_vfr_result (image_paths : List String) (durations_ns : List Int) :
    Except String (List String) :=
  if image_paths.length ≠ durations_ns.length then
    Except.error "Image path and duration counts do not match"
  else Except.ok (encode_vfr_lines image_paths durations_ns)

/-- Modelled from the spec's manifest description (§6), for the refinement
claim C8: per frame, in order, a single-quoted `file` line (embedded
single quotes escaped as `'\''`) and a `duration` line with 9 decimal
places. -/
def spec_manifest_frame_lines : List String → List Int → List String
  | p :: ps, d :: ds =>
    ("file " ++ quote_concat_path p) :: ("duration " ++ pyFormatSeconds9 d)
      :: spec_manifest_frame_lines ps ds
  | _, _ => []

/-- Modelled from the spec's manifest description (§6): the per-frame lines
followed by a final `file` line repeating the last frame's path, with no
duration line after it. -/
def spec_manifest (ps : List String) (ds : List Int) : List String :=
  spec_manifest_frame_lines ps ds ++ ["file " ++ quote_concat_path (ps.getLastD "")]

/-- Paths free of the characters `_sanitize_path` rejects. -/
abbrev clean_path (p : String) : Prop := ∀ c ∈ p.data, c ∉ dangerous_chars

/-- An uncompressed image message of topic `cam` with the given log time
and no embedded header stamp, for concrete runs of the converter. -/
def cam_image_msg (t : Int) : McapMessage :=
  { schemaName := some "sensor_msgs/msg/Image", topic := "cam", logTime := t,
    headerStampNs := none }

/-- Three frames whose log times go 0, 1, 0: the deltas 1 and -1 hold a
positive delta yet cancel to a zero mean. -/
def c1_cex_msgs : List McapMessage := [cam_image_msg 0, cam_image_msg 1, cam_image_msg 0]

/-- Two frames 100 ns apart: a well-timed CFR conversion. -/
def c1_wit_msgs : List McapMessage := [cam_image_msg 0, cam_image_msg 100]

/-- A log whose summary declares one image-schema channel on topic
`/camera` while the message stream is empty. -/
def c9_log : McapLog :=
  { summary := some { schemas := [{ id := 1, name := "sensor_msgs/msg/Image" }],
                      channels := [{ schemaId := 1, topic := "/camera" }] },
    messages := [] }

/-- Two frame files, the first with an embedded single quote, and their
planned durations, for a concrete manifest. -/
def c8_wit_paths : List String := ["/tmp/frames/a\x27b.png", "/tmp/frames/c.png"]

/-- Durations paired with `c8_wit_paths`. -/
def c8_wit_durs : List Int := [33333333, 1500000000]

/-! Helper lemmas about the embedded Python primitives. -/

theorem mem_insertSorted {y x : Int} {l : List Int} (h : y ∈ insertSorted x l) :
    y = x ∨ y ∈ l := by
  induction l with
  | nil => simpa [insertSorted] using h
  | cons z zs ih =>
    unfold insertSorted at h
    split_ifs at h with hx
    · exact List.mem_cons.mp h
    · rcases List.mem_cons.mp h with h1 | h2
      · exact Or.inr (by simp [h1])
      · rcases ih h2 with h3 | h4
        · exact Or.inl h3
        · exact Or.inr (List.mem_cons_of_mem _ h4)

theorem mem_pySorted {y : Int} {l : List Int} (h : y ∈ pySorted l) : y ∈ l := by
  induction l with
  | nil => simp [pySorted] at h
  | cons x xs ih =>
    unfold pySorted at h
    rw [List.foldr_cons] at h
    rcases mem_insertSorted h with h1 | h2
    · simp [h1]
    · exact List.mem_cons_of_mem _ (ih h2)

theorem length_insertSorted (x : Int) (l : List Int) :
    (insertSorted x l).length = l.length + 1 := by
  induction l with
  | nil => simp [insertSorted]
  | cons z zs ih =>
    unfold insertSorted
    split_ifs with hx
    · simp
    · simp [ih]

theorem length_pySorted (l : List Int) : (pySorted l).length = l.length := by
  induction l with
  | nil => simp [pySorted]
  | cons x xs ih =>
    unfold pySorted at *
    rw [List.foldr_cons, length_insertSorted, ih, List.length_cons]

theorem getD_mem_of_lt {l : List Int} {i : Nat} (h : i < l.length) : l.getD i 0 ∈ l := by
  induction l generalizing i with
  | nil => simp at h
  | cons x xs ih =>
    cases i with
    | zero => simp [List.getD]
    | succ n =>
      have : xs.getD n 0 ∈ xs := ih (by simpa using Nat.lt_of_succ_lt_succ h)
      simpa [List.getD] using Or.inr this

theorem one_le_pyMedian {l : List Int} (hne : l ≠ []) (h1 : ∀ x ∈ l, (1 : Int) ≤ x) :
    1 ≤ pyMedian l := by
  have hlen : (pySorted l).length = l.length := length_pySorted l
  have hpos : 0 < l.length := List.length_pos.mpr hne
  unfold pyMedian
  split_ifs with hodd
  · have hidx : l.length / 2 < (pySorted l).length := by omega
    have hm : (pySorted l).getD (l.length / 2) 0 ∈ l := mem_pySorted (getD_mem_of_lt hidx)
    exact_mod_cast h1 _ hm
  · have h2 : 2 ≤ l.length := by omega
    have hidxa : l.length / 2 - 1 < (pySorted l).length := by omega
    have hidxb : l.length / 2 < (pySorted l).length := by omega
    have hma : (pySorted l).getD (l.length / 2 - 1) 0 ∈ l := mem_pySorted (getD_mem_of_lt hidxa)
    have hmb : (pySorted l).getD (l.length / 2) 0 ∈ l := mem_pySorted (getD_mem_of_lt hidxb)
    have ha : ((1 : Int) : ℚ) ≤ ((pySorted l).getD (l.length / 2 - 1) 0 : ℚ) := by
      exact_mod_cast h1 _ hma
    have hb : ((1 : Int) : ℚ) ≤ ((pySorted l).getD (l.length / 2) 0 : ℚ) := by
      exact_mod_cast h1 _ hmb
    rw [Rat.divInt_eq_div]
    rw [le_div_iff₀ (by norm_num : (0 : ℚ) < ((2 : Int) : ℚ))]
    push_cast at ha hb ⊢
    linarith

theorem one_le_pyInt {q : ℚ} (h : 1 ≤ q) : 1 ≤ pyInt q := by
  unfold pyInt
  rw [if_pos (le_trans zero_le_one h)]
  exact Rat.le_floor.mpr (by exact_mod_cast h)

theorem fallback_duration_ns_pos : 0 < fallback_duration_ns := by decide

theorem vfr_reference_init_pos (raw_deltas : List Int) : 0 < vfr_reference_init raw_deltas := by
  unfold vfr_reference_init
  split_ifs with h
  · have h1 : ∀ x ∈ raw_deltas.filter (fun d => decide (0 < d)), (1 : Int) ≤ x := by
      intro x hx
      have hmem := List.mem_filter.mp hx
      have h0 : 0 < x := of_decide_eq_true hmem.2
      omega
    have := one_le_pyInt (one_le_pyMedian h h1)
    omega
  · exact fallback_duration_ns_pos

theorem vfr_adjusted_pos {r : Int} (d : Int) (hr : 0 < r) : 0 < vfr_adjusted r d := by
  unfold vfr_adjusted
  split_ifs with h1 h2
  · exact hr
  · exact lt_of_lt_of_le hr (le_max_right _ _)
  · omega

theorem vfr_foldl_length (ds : List Int) (acc : List Int) (r : Int) :
    ((ds.foldl vfr_step (acc, r)).1).length = acc.length + ds.length := by
  induction ds generalizing acc r with
  | nil => simp
  | cons d ds ih =>
    rw [List.foldl_cons]
    show ((ds.foldl vfr_step (acc ++ [vfr_adjusted r d], vfr_adjusted r d)).1).length = _
    rw [ih]
    simp
    omega

theorem vfr_foldl_pos (ds : List Int) (acc : List Int) (r : Int) (hr : 0 < r)
    (hacc : ∀ x ∈ acc, 0 < x) :
    (∀ x ∈ (ds.foldl vfr_step (acc, r)).1, 0 < x) ∧ 0 < (ds.foldl vfr_step (acc, r)).2 := by
  induction ds generalizing acc r with
  | nil => exact ⟨hacc, hr⟩
  | cons d ds ih =>
    rw [List.foldl_cons]
    show (∀ x ∈ (ds.foldl vfr_step (acc ++ [vfr_adjusted r d], vfr_adjusted r d)).1, 0 < x) ∧ _
    refine ih _ _ (vfr_adjusted_pos d hr) ?_
    intro x hx
    rcases List.mem_append.mp hx with h | h
    · exact hacc x h
    · have : x = vfr_adjusted r d := by simpa using h
      rw [this]
      exact vfr_adjusted_pos d hr

theorem listDeltas_length (ts : List Int) : (listDeltas ts).length = ts.length - 1 := by
  unfold listDeltas
  rw [List.length_map, List.length_zip, List.length_tail]
  omega

theorem _sanitize_path_ok {p : String} (h : clean_path p) :
    _sanitize_path p = Except.ok p := by
  unfold _sanitize_path
  rw [if_neg]
  intro hx
  rw [List.any_eq_true] at hx
  obtain ⟨c, hc, hd⟩ := hx
  exact h c hc (of_decide_eq_true hd)

theorem _sanitize_path_error {p : String} (h : ∃ c ∈ p.data, c ∈ dangerous_chars) :
    _sanitize_path p = Except.error (ConvertError.invalidPath p) := by
  unfold _sanitize_path
  rw [if_pos]
  rw [List.any_eq_true]
  obtain ⟨c, hc, hd⟩ := h
  exact ⟨c, hc, decide_eq_true hd⟩

theorem pyMean_deltas_zero {ts : List Int} (h : ∀ a ∈ ts, ∀ b ∈ ts, a = b) :
    pyMean (listDeltas ts) = 0 := by
  have hz : ∀ d ∈ listDeltas ts, d = 0 := by
    intro d hd
    unfold listDeltas at hd
    rw [List.mem_map] at hd
    obtain ⟨p, hp, rfl⟩ := hd
    have h12 := List.of_mem_zip hp
    have h2 : p.2 ∈ ts := List.mem_of_mem_tail h12.2
    have := h p.2 h2 p.1 h12.1
    omega
  have hsum : (listDeltas ts).sum = 0 := List.sum_eq_zero hz
  unfold pyMean
  rw [hsum]
  exact Rat.zero_divInt _

theorem encode_vfr_foldl (ps : List String) (ds : List Int) (acc : List String) :
    (ps.zip ds).foldl
      (fun lines pd =>
        lines ++ ["file " ++ quote_concat_path pd.1,
                  "duration " ++ pyFormatSeconds9 pd.2]) acc
      = acc ++ spec_manifest_frame_lines ps ds := by
  induction ps generalizing ds acc with
  | nil => simp [spec_manifest_frame_lines]
  | cons p ps ih =>
    cases ds with
    | nil => simp [spec_manifest_frame_lines]
    | cons d ds =>
      rw [List.zip_cons_cons, List.foldl_cons, ih]
      simp [spec_manifest_frame_lines]

theorem get_image_topic_list_nodup (log : McapLog) : (get_image_topic_list log).Nodup := by
  unfold get_image_topic_list
  cases log.summary with
  | none => simp
  | some s => exact List.nodup_dedup _

theorem mem_get_image_topic_list {log : McapLog} {t : String} :
    t ∈ get_image_topic_list log ↔
      ∃ s : McapSummary, log.summary = some s ∧
        ∃ ch ∈ s.channels, ch.topic = t ∧
          ∃ sc : McapSchema, s.schemas.find? (fun x => x.id == ch.schemaId) = some sc ∧
            sc.name ∈ IMAGE_SCHEMAS := by
  unfold get_image_topic_list
  cases hs : log.summary with
  | none => simp
  | some s =>
    rw [List.mem_dedup, List.mem_filterMap]
    constructor
    · rintro ⟨ch, hch, hf⟩
      cases hfind : s.schemas.find? (fun x => x.id == ch.schemaId) with
      | none =>
        simp only [hfind] at hf
        exact absurd hf (by simp)
      | some sc =>
        simp only [hfind] at hf
        by_cases him : sc.name ∈ IMAGE_SCHEMAS
        · rw [if_pos him] at hf
          exact ⟨s, rfl, ch, hch, Option.some.inj hf, sc, hfind, him⟩
        · rw [if_neg him] at hf
          exact absurd hf (by simp)
    · rintro ⟨s', hs', ch, hch, rfl, sc, hfind, him⟩
      have hss : s' = s := (Option.some.inj hs').symm
      subst hss
      exact ⟨ch, hch, by simp [hfind, him]⟩

/-! Claim theorems. -/

/-- C1, corrected: a positive consecutive delta does not suffice for the
CFR planner to return a rate — the timestamps 0, 1, 0 have the positive
delta 1, yet their deltas cancel to a zero mean and the conversion exits
with the degenerate-timing condition instead of returning a frame rate. -/
theorem c1_cfr_positive_delta_not_sufficient :
    2 ≤ (scan_log_times c1_cex_msgs "cam").length ∧
    (∃ d ∈ listDeltas (scan_log_times c1_cex_msgs "cam"), 0 < d) ∧
    convert_to_mp4 c1_cex_msgs "in.mcap" "cam" "out.mp4" false =
      Except.error ConvertError.degenerateTiming := by
  refine ⟨by decide, ⟨1, by decide, by decide⟩, by decide⟩

/-- C1, amended: for every CFR-mode conversion whose scan yields at least
2 timestamps (paths clean), when the arithmetic mean of all raw
consecutive deltas — negative and zero deltas included, unfiltered — is
nonzero, the conversion returns the frame rate `1e9 / mean`; whenever
that mean is zero (all-identical timestamps as well as positive-negative
cancellation) it does not return a rate but fails with the
degenerate-timing condition; and all-identical timestamps do have a zero
mean, so that family fails this way. -/
theorem c1_cfr_mean_rate_amended (msgs : List McapMessage)
    (input_file topic output_file : String)
    (hin : clean_path input_file) (hout : clean_path output_file)
    (h2 : 2 ≤ (scan_log_times msgs topic).length) :
    (pyMean (listDeltas (scan_log_times msgs topic)) ≠ 0 →
      convert_to_mp4 msgs input_file topic output_file false =
        Except.ok (ConvertOutput.cfr
          (1 / pyMean (listDeltas (scan_log_times msgs topic)) * 10 ^ (9 : Nat))
          (scan_log_times msgs topic).length)) ∧
    (pyMean (listDeltas (scan_log_times msgs topic)) = 0 →
      convert_to_mp4 msgs input_file topic output_file false =
        Except.error ConvertError.degenerateTiming) ∧
    ((∀ a ∈ scan_log_times msgs topic, ∀ b ∈ scan_log_times msgs topic, a = b) →
      pyMean (listDeltas (scan_log_times msgs topic)) = 0) := by
  have hconv : convert_to_mp4 msgs input_file topic output_file false =
      (if pyMean (listDeltas (scan_log_times msgs topic)) = 0 then
        Except.error ConvertError.degenerateTiming
      else
        Except.ok (ConvertOutput.cfr
          (1 / pyMean (listDeltas (scan_log_times msgs topic)) * 10 ^ (9 : Nat))
          (scan_log_times msgs topic).length)) := by
    unfold convert_to_mp4
    simp only [_sanitize_path_ok hin, _sanitize_path_ok hout]
    rw [if_neg (by omega), if_pos trivial]
  refine ⟨?_, ?_, ?_⟩
  · intro hmean
    rw [hconv, if_neg hmean]
  · intro hmean
    rw [hconv, if_pos hmean]
  · intro hsame
    exact pyMean_deltas_zero hsame

/-- Witness for C1's amended theorem: two frames 100 ns apart convert at
the mean-delta rate. -/
theorem c1_cfr_mean_rate_witness :
    convert_to_mp4 c1_wit_msgs "in.mcap" "cam" "out.mp4" false =
      Except.ok (ConvertOutput.cfr
        (1 / pyMean (listDeltas (scan_log_times c1_wit_msgs "cam")) * 10 ^ (9 : Nat))
        (scan_log_times c1_wit_msgs "cam").length) :=
  (c1_cfr_mean_rate_amended c1_wit_msgs "in.mcap" "cam" "out.mp4" (by decide) (by decide)
    (by decide)).1 (by decide)

/-- C2, confirmed: on the timestamps 0, 1000000, 1000100, 1000200 the VFR
planner returns the durations 1000, 100, 100, 100 — the raw deltas are
1000000, 100, 100, the initial reference is `int` of the median (100, not
the mean) of the positive deltas, so the outlier first delta is clamped to
10 times that reference and the final frame inherits the last reference of
100. -/
theorem c2_vfr_median_reference_plan :
    build_vfr_durations_ns [0, 1000000, 1000100, 1000200] = [1000, 100, 100, 100] ∧
    listDeltas [0, 1000000, 1000100, 1000200] = [1000000, 100, 100] ∧
    pyInt (pyMedian [1000000, 100, 100]) = 100 := by decide

/-- C3, confirmed: with `MAX_GAP_MULTIPLIER = 10`, on the timestamps 0,
100, 100, 5000 the VFR planner returns the durations 100, 100, 1000, 1000
— the zero delta is clamped to the running reference of 100, the delta of
4900 is clamped to 10 times the then-current running reference of 100
(adaptive, not fixed to the initial estimate), and the final frame
inherits 1000. -/
theorem c3_vfr_adaptive_clamp_plan :
    MAX_GAP_MULTIPLIER = 10 ∧
    build_vfr_durations_ns [0, 100, 100, 5000] = [100, 100, 1000, 1000] := by decide

/-- C4, confirmed: for every timestamp list the VFR planner's duration
list has exactly as many entries as there are timestamps (one per frame,
never one per delta): the loop over the deltas is followed by one trailing
duration for the last frame. -/
theorem c4_vfr_durations_length_eq_frame_count (timestamps_ns : List Int) :
    (build_vfr_durations_ns timestamps_ns).length = timestamps_ns.length := by
  unfold build_vfr_durations_ns
  split_ifs with h0 h1
  · simp [h0]
  · simp [h1]
  · unfold vfr_fold
    rw [List.length_append, vfr_foldl_length, listDeltas_length]
    simp
    omega

/-- C5, confirmed: every duration the VFR planner produces is strictly
positive — a zero or negative raw delta is never passed through, it is
replaced by the current (positive) reference duration. -/
theorem c5_vfr_durations_pos (timestamps_ns : List Int) (d : Int)
    (hd : d ∈ build_vfr_durations_ns timestamps_ns) : 0 < d := by
  unfold build_vfr_durations_ns at hd
  split_ifs at hd with h0 h1
  · simp at hd
  · rw [List.mem_singleton] at hd
    rw [hd]
    exact fallback_duration_ns_pos
  · unfold vfr_fold at hd
    rcases List.mem_append.mp hd with h | h
    · exact (vfr_foldl_pos _ [] _ (vfr_reference_init_pos _) (by simp)).1 d h
    · rw [List.mem_singleton] at h
      rw [h]
      exact (vfr_foldl_pos _ [] _ (vfr_reference_init_pos _) (by simp)).2

/-- Witness for C5: the planner's output on the timestamps 0, 100
contains the duration 100, and it is positive. -/
theorem c5_vfr_durations_pos_witness : 0 < (100 : Int) :=
  c5_vfr_durations_pos [0, 100] 100 (by decide)

/-- C6, confirmed: when the pass-1 scan records fewer than 2 qualifying
frames (paths clean), the conversion aborts with the user-facing
insufficient-frames exit — an error outcome carrying no decoded frame and
no output, in either timing mode, so phase 2 is never entered. -/
theorem c6_insufficient_frames_aborts (msgs : List McapMessage)
    (input_file topic output_file : String) (timestamp_timing : Bool)
    (hin : clean_path input_file) (hout : clean_path output_file)
    (h : (scan_log_times msgs topic).length < 2) :
    convert_to_mp4 msgs input_file topic output_file timestamp_timing =
      Except.error ConvertError.insufficientFrames := by
  unfold convert_to_mp4
  simp only [_sanitize_path_ok hin, _sanitize_path_ok hout]
  rw [if_pos h]

/-- Witness for C6: converting an empty log aborts with the
insufficient-frames exit. -/
theorem c6_insufficient_frames_witness :
    convert_to_mp4 [] "in.mcap" "cam" "out.mp4" false =
      Except.error ConvertError.insufficientFrames :=
  c6_insufficient_frames_aborts [] "in.mcap" "cam" "out.mp4" false (by decide) (by decide)
    (by decide)

/-- C7, confirmed: on a single-element timestamp list the VFR planner
returns the one-element fallback list — `int(1e9 / 30.0)` = 33333333 ns,
the nanosecond equivalent of the default 30.0 fps fallback rate —
independent of the timestamp's value. -/
theorem c7_single_frame_fallback :
    build_vfr_durations_ns [12345] = [fallback_duration_ns] ∧
    fallback_duration_ns = 33333333 ∧
    ∀ t : Int, build_vfr_durations_ns [t] = [33333333] := by
  refine ⟨by decide, by decide, fun t => ?_⟩
  unfold build_vfr_durations_ns
  rw [if_neg (by simp), if_pos (by simp)]
  decide

/-- C8, confirmed: for every non-empty list of frame paths with an
equal-length duration list, the manifest `encode_vfr` writes equals the
spec's description — per frame, in order, a `file` line whose path is
single-quoted with embedded single quotes escaped as `'\''` and a
`duration` line with 9 decimal places (nanoseconds over 1e9), then one
final `file` line repeating the last path with no duration line. -/
theorem c8_vfr_manifest_format (image_paths : List String) (durations_ns : List Int)
    (_hne : image_paths ≠ []) (_hlen : image_paths.length = durations_ns.length) :
    encode_vfr_lines image_paths durations_ns = spec_manifest image_paths durations_ns := by
  unfold encode_vfr_lines spec_manifest
  rw [encode_vfr_foldl]
  simp

/-- Witness for C8: the manifest for two frames, the first path holding an
embedded single quote. -/
theorem c8_vfr_manifest_witness :
    encode_vfr_lines c8_wit_paths c8_wit_durs = spec_manifest c8_wit_paths c8_wit_durs :=
  c8_vfr_manifest_format c8_wit_paths c8_wit_durs (by decide) (by decide)

/-- C9, corrected: a topic can appear in the discovered list with zero
image messages in the log — channel discovery reads only the summary's
channel records, and a summary may declare an image-schema channel whose
topic carries no message at all. -/
theorem c9_zero_message_topic_counterexample :
    "/camera" ∈ get_image_topic_list c9_log ∧ image_message_count c9_log "/camera" = 0 := by
  decide

/-- C9, amended: channel discovery returns a deduplicated list of topic
names, and a topic appears exactly when the log's summary holds a channel
with that topic whose schema id resolves to a recognised image-bearing
schema — regardless of how many messages the topic carries. -/
theorem c9_topic_list_amended (log : McapLog) (t : String) :
    (get_image_topic_list log).Nodup ∧
    (t ∈ get_image_topic_list log ↔
      ∃ s : McapSummary, log.summary = some s ∧
        ∃ ch ∈ s.channels, ch.topic = t ∧
          ∃ sc : McapSchema, s.schemas.find? (fun x => x.id == ch.schemaId) = some sc ∧
            sc.name ∈ IMAGE_SCHEMAS) :=
  ⟨get_image_topic_list_nodup log, mem_get_image_topic_list⟩

/-- C10, confirmed: a conversion whose input or output path holds any of
the shell-dangerous characters fails with the path `ValueError` before any
scan of the log (the outcome does not depend on the messages), and a
clean path passes through `_sanitize_path` unchanged. -/
theorem c10_path_sanitization_gate (msgs : List McapMessage)
    (input_file topic output_file : String) (timestamp_timing : Bool) :
    ((∃ c ∈ input_file.data, c ∈ dangerous_chars) →
      convert_to_mp4 msgs input_file topic output_file timestamp_timing =
        Except.error (ConvertError.invalidPath input_file)) ∧
    (clean_path input_file → (∃ c ∈ output_file.data, c ∈ dangerous_chars) →
      convert_to_mp4 msgs input_file topic output_file timestamp_timing =
        Except.error (ConvertError.invalidPath output_file)) ∧
    (∀ p : String, clean_path p → _sanitize_path p = Except.ok p) := by
  refine ⟨?_, ?_, fun p hp => _sanitize_path_ok hp⟩
  · intro h
    unfold convert_to_mp4
    simp only [_sanitize_path_error h]
  · intro hin h
    unfold convert_to_mp4
    simp only [_sanitize_path_ok hin, _sanitize_path_error h]
